import Mathlib

/-!
Verification development for the WebPaper text-processing pipeline.

The Lean definitions in this file are shallow embeddings of the Python
sources:
  * `deduplication.py`   — MinHash/LSH near-duplicate removal,
  * `integrated_filter/extractor.py` — the brace-counting JSON stream parser,
  * `cleaning.py`        — the `AcademicContentFilter` quality rules.

Machine floats of the Python code are modelled as rationals, Python
exceptions as an explicit `Except`, and the external collaborators
(datasketch's hash family, NLTK's tokenizer) as explicit parameters,
following the way the specification isolates them as collaborators.
-/

set_option autoImplicit false

namespace WebPaper

/-! ### Python-style character and string utilities -/

/-- ASCII whitespace set used to model Python's `str.strip`, `str.split`
and the regex class `\s` (the inputs of interest are ASCII). -/
def pyIsSpace (c : Char) : Bool :=
  c = ' ' || c = '\t' || c = '\n' || c = '\r' || c = '\x0b' || c = '\x0c'

/-- The apostrophe character (code point 39). -/
def squote : Char := Char.ofNat 39

/-- Left curly double quote (code point 8220). -/
def lcurlyQuote : Char := Char.ofNat 8220

/-- Right curly double quote (code point 8221). -/
def rcurlyQuote : Char := Char.ofNat 8221

/-- Opening brace character (code point 123). -/
def lbrace : Char := Char.ofNat 123

/-- Closing brace character (code point 125). -/
def rbrace : Char := Char.ofNat 125

/-- Python `str.lower()` (ASCII model). -/
def pyLower (s : String) : String := ⟨s.data.map Char.toLower⟩

/-- Python `str.strip()`: drop whitespace from both ends. -/
def pyStrip (s : String) : String :=
  ⟨((s.data.dropWhile pyIsSpace).reverse.dropWhile pyIsSpace).reverse⟩

/-- Python substring containment `needle in hay`. -/
def containsSub (needle : List Char) : List Char → Bool
  | [] => needle.isEmpty
  | c :: cs => needle.isPrefixOf (c :: cs) || containsSub needle cs

/-- Python `str.replace(pat, rep)` for a non-empty pattern: replace every
non-overlapping occurrence, scanning left to right.  The first numeric
argument is fuel (the input length suffices). -/
def replaceAllAux (pat rep : List Char) : Nat → List Char → List Char
  | _, [] => []
  | 0, l => l
  | fuel + 1, c :: cs =>
    if pat.isPrefixOf (c :: cs) && !pat.isEmpty then
      rep ++ replaceAllAux pat rep fuel ((c :: cs).drop pat.length)
    else
      c :: replaceAllAux pat rep fuel cs

/-- Python `str.replace` on strings. -/
def replaceAll (s pat rep : String) : String :=
  ⟨replaceAllAux pat.data rep.data s.data.length s.data⟩

/-- Python `str.split()` (no separator): split on whitespace runs and
discard empty pieces; the second argument accumulates the current word in
reverse. -/
def pySplitAux : List Char → List Char → List String
  | [], [] => []
  | [], acc => [⟨acc.reverse⟩]
  | c :: cs, acc =>
    if pyIsSpace c then
      match acc with
      | [] => pySplitAux cs []
      | _ => (⟨acc.reverse⟩ : String) :: pySplitAux cs []
    else pySplitAux cs (c :: acc)

/-- Python `text.split()`. -/
def pySplit (s : String) : List String := pySplitAux s.data []

/-- Regex `\w`: word character (ASCII model: alphanumeric or underscore). -/
def isWordChar (c : Char) : Bool := c.isAlphanum || c = '_'

/-- Python `str.isalpha()` (ASCII model): non-empty and all alphabetic. -/
def pyIsAlpha (w : String) : Bool := !w.data.isEmpty && w.data.all Char.isAlpha

/-! ### `deduplication.py` — MinHash / LSH near-duplicate removal

`datasketch.MinHash` / `MinHashLSH` are an external library; following the
specification's Similarity Index contract (section 4.3) they are embedded
as: one hash value per permutation seed, the signature being the minimum
hash over the whitespace tokens of the text, and an LSH index that, for a
banding `(b, r)` of the signature, reports a near-duplicate exactly when
some band coincides with the band of an already-inserted signature.  The
hash family below is a concrete deterministic stand-in for the library's
seeded hash family; no theorem depends on its statistical quality. -/

/-- Base polynomial hash of a token. -/
def wordBase (w : String) : Nat :=
  w.data.foldl (fun acc c => acc * 131 + c.toNat) 7

/-- Seeded hash: member `i` of the simulated permutation family. -/
def hashWord (seed : Nat) (w : String) : Nat :=
  ((2 * seed + 1) * wordBase w + seed) % 4294967291

/-- Sentinel maximum hash value (degenerate signature entry for a text
with no tokens). -/
def MAXHASH : Nat := 4294967295

/-- Minimum of the seeded hash over the token list. -/
def minhashAt (seed : Nat) (toks : List String) : Nat :=
  toks.foldl (fun m w => min m (hashWord seed w)) MAXHASH

/-- `get_minhash(text, num_perm=128)` from `deduplication.py`: the MinHash
signature of the whitespace tokens of `text`. -/
def get_minhash (text : String) (num_perm : Nat := 128) : List Nat :=
  (List.range num_perm).map fun i => minhashAt i (pySplit text)

/-- Band `i` of a signature under a banding with `r` rows per band. -/
def band (sig : List Nat) (r i : Nat) : List Nat :=
  (sig.drop (i * r)).take r

/-- Two signatures are LSH candidates iff some band coincides. -/
def bandMatch (b r : Nat) (s1 s2 : List Nat) : Bool :=
  (List.range b).any fun i => decide (band s1 r i = band s2 r i)

/-- LSH index contents: the inserted `(key, signature)` pairs. -/
abbrev LSHKeys := List (String × List Nat)

/-- `lsh.query(mh)` is non-empty iff some stored signature shares a band. -/
def lshQuery (b r : Nat) (keys : LSHKeys) (sig : List Nat) : Bool :=
  keys.any fun kv => bandMatch b r kv.2 sig

/-- `lsh.insert(key, mh)`. -/
def lshInsert (keys : LSHKeys) (key : String) (sig : List Nat) : LSHKeys :=
  keys ++ [(key, sig)]

/-- The loop of `deduplicate_texts`: for each text in order, keep it iff
the LSH query comes back empty, inserting kept signatures. -/
def dedupAux (b r : Nat) : LSHKeys → Nat → List String → List String
  | _, _, [] => []
  | keys, i, t :: ts =>
    let mh := get_minhash t
    if lshQuery b r keys mh then
      dedupAux b r keys (i + 1) ts
    else
      t :: dedupAux b r (lshInsert keys ("text_" ++ toString i) mh) (i + 1) ts

/-- `deduplicate_texts(texts, threshold)` from `deduplication.py`, for the
banding `(b, r)` that `MinHashLSH` derives from its threshold. -/
def deduplicate_texts (texts : List String) (b r : Nat) : List String :=
  dedupAux b r [] 0 texts

/-! ### The Python `json` module, modelled

`integrated_filter/extractor.py` delegates structural parsing to the
standard-library `json.loads`; the recursive-descent parser below embeds
its grammar: objects, arrays, double-quoted strings with escapes (raw
control characters rejected, as in strict mode), numbers (kept as their
lexeme — no numeric comparison is needed by any claim), `true`, `false`,
`null`, and the `NaN`/`Infinity` constants Python accepts.  Objects are
built with Python-dict semantics: a repeated key keeps its position and
overwrites its value. -/

inductive Json where
  | str : String → Json
  | num : String → Json
  | bool : Bool → Json
  | null : Json
  | arr : List Json → Json
  | obj : List (String × Json) → Json

/-- JSON inter-token whitespace. -/
def jsonWs (c : Char) : Bool := c = ' ' || c = '\t' || c = '\n' || c = '\r'

/-- Value of a hexadecimal digit. -/
def parseHexDigit (c : Char) : Option Nat :=
  if c.isDigit then some (c.toNat - 48)
  else if 'a' ≤ c && c ≤ 'f' then some (c.toNat - 87)
  else if 'A' ≤ c && c ≤ 'F' then some (c.toNat - 55)
  else none

/-- Body of a JSON string (after the opening quote), accumulated in
reverse; returns the decoded string and the input after the closing
quote.  A lone surrogate `\uXXXX` decodes to the null character (the one
place this model coarsens Python, which pairs surrogates). -/
def parseStringAux : Nat → List Char → List Char → Option (String × List Char)
  | 0, _, _ => none
  | _ + 1, _, [] => none
  | fuel + 1, acc, c :: cs =>
    if c = '"' then some (⟨acc.reverse⟩, cs)
    else if c = '\\' then
      match cs with
      | [] => none
      | e :: cs2 =>
        if e = '"' || e = '\\' || e = '/' then parseStringAux fuel (e :: acc) cs2
        else if e = 'b' then parseStringAux fuel ('\x08' :: acc) cs2
        else if e = 'f' then parseStringAux fuel ('\x0c' :: acc) cs2
        else if e = 'n' then parseStringAux fuel ('\n' :: acc) cs2
        else if e = 'r' then parseStringAux fuel ('\r' :: acc) cs2
        else if e = 't' then parseStringAux fuel ('\t' :: acc) cs2
        else if e = 'u' then
          match cs2 with
          | h1 :: h2 :: h3 :: h4 :: cs3 =>
            match parseHexDigit h1, parseHexDigit h2, parseHexDigit h3, parseHexDigit h4 with
            | some a, some b, some c', some d =>
              parseStringAux fuel (Char.ofNat (((a * 16 + b) * 16 + c') * 16 + d) :: acc) cs3
            | _, _, _, _ => none
          | _ => none
        else none
    else if c.toNat < 32 then none
    else parseStringAux fuel (c :: acc) cs

/-- Parse a JSON string body with sufficient fuel. -/
def parseString (l : List Char) : Option (String × List Char) :=
  parseStringAux (l.length + 1) [] l

/-- Digit prefix of the input. -/
def digitSpan (l : List Char) : List Char × List Char := l.span Char.isDigit

/-- Integer part of a JSON number: `0`, or a nonzero digit followed by
digits (leading zeros rejected, as in Python's json). -/
def parseIntPart : List Char → Option (List Char × List Char)
  | [] => none
  | c :: rest =>
    if c = '0' then some (['0'], rest)
    else if c.isDigit then
      let (ds, r) := digitSpan rest
      some (c :: ds, r)
    else none

/-- JSON number (sign, integer part, optional fraction and exponent); the
result keeps the lexeme verbatim. -/
def parseNumber (l : List Char) : Option (Json × List Char) :=
  let (sign, l1) := match l with
    | c :: rest => if c = '-' then (['-'], rest) else (([] : List Char), l)
    | [] => ([], l)
  match parseIntPart l1 with
  | none => none
  | some (ip, r1) =>
    let (fp, r2) := match r1 with
      | c :: rest =>
        if c = '.' then
          let (ds, r') := digitSpan rest
          if ds.isEmpty then (none, r1) else (some ('.' :: ds), r')
        else (none, r1)
      | [] => (none, r1)
    match fp, r1 with
    | none, c :: _ =>
      if c = '.' then none   -- a bare dot with no digits is an error
      else
        match parseExpPart r2 with
        | none => none
        | some (ep, r3) => some (Json.num ⟨sign ++ ip ++ ep⟩, r3)
    | _, _ =>
      match parseExpPart r2 with
      | none => none
      | some (ep, r3) => some (Json.num ⟨sign ++ ip ++ (fp.getD []) ++ ep⟩, r3)
where
  /-- Optional exponent part; `none` only on a malformed exponent. -/
  parseExpPart : List Char → Option (List Char × List Char)
    | [] => some ([], [])
    | c :: rest =>
      if c = 'e' || c = 'E' then
        let (sg, r') := match rest with
          | d :: rest' => if d = '+' || d = '-' then ([d], rest') else (([] : List Char), rest)
          | [] => ([], rest)
        let (ds, r'') := digitSpan r'
        if ds.isEmpty then none else some (c :: sg ++ ds, r'')
      else some ([], c :: rest)

/-- Python-dict insertion: an existing key keeps its position and gets the
new value; a new key is appended. -/
def objInsert : List (String × Json) → String → Json → List (String × Json)
  | [], k, v => [(k, v)]
  | (k0, v0) :: rest, k, v =>
    if k0 = k then (k0, v) :: rest else (k0, v0) :: objInsert rest k v

mutual

/-- A JSON value, by recursive descent (fuel-indexed). -/
def parseValue : Nat → List Char → Option (Json × List Char)
  | 0, _ => none
  | fuel + 1, l =>
    let l1 := l.dropWhile jsonWs
    match l1 with
    | [] => none
    | c :: cs =>
      if c = '"' then
        match parseString cs with
        | some (s, r) => some (Json.str s, r)
        | none => none
      else if c = lbrace then
        let r1 := cs.dropWhile jsonWs
        match r1 with
        | d :: ds => if d = rbrace then some (Json.obj [], ds) else parseMembers fuel [] r1
        | [] => none
      else if c = '[' then
        let r1 := cs.dropWhile jsonWs
        match r1 with
        | d :: ds => if d = ']' then some (Json.arr [], ds) else parseItems fuel [] r1
        | [] => none
      else if "true".data.isPrefixOf l1 then some (Json.bool true, l1.drop 4)
      else if "false".data.isPrefixOf l1 then some (Json.bool false, l1.drop 5)
      else if "null".data.isPrefixOf l1 then some (Json.null, l1.drop 4)
      else if "NaN".data.isPrefixOf l1 then some (Json.num "NaN", l1.drop 3)
      else if "Infinity".data.isPrefixOf l1 then some (Json.num "Infinity", l1.drop 8)
      else if "-Infinity".data.isPrefixOf l1 then some (Json.num "-Infinity", l1.drop 9)
      else parseNumber l1

/-- Members of an object, starting at the first key (whitespace already
skipped, object known non-empty). -/
def parseMembers : Nat → List (String × Json) → List Char → Option (Json × List Char)
  | 0, _, _ => none
  | fuel + 1, acc, l =>
    match l with
    | [] => none
    | c :: cs =>
      if c = '"' then
        match parseString cs with
        | none => none
        | some (k, r1) =>
          match r1.dropWhile jsonWs with
          | ':' :: r3 =>
            match parseValue fuel r3 with
            | none => none
            | some (v, r4) =>
              let acc2 := objInsert acc k v
              match r4.dropWhile jsonWs with
              | ',' :: r6 => parseMembers fuel acc2 (r6.dropWhile jsonWs)
              | d :: r6 => if d = rbrace then some (Json.obj acc2, r6) else none
              | [] => none
          | _ => none
      else none

/-- Items of an array, starting at the first item (array known
non-empty). -/
def parseItems : Nat → List Json → List Char → Option (Json × List Char)
  | 0, _, _ => none
  | fuel + 1, acc, l =>
    match parseValue fuel l with
    | none => none
    | some (v, r) =>
      match r.dropWhile jsonWs with
      | ',' :: r2 => parseItems fuel (v :: acc) r2
      | c :: r2 => if c = ']' then some (Json.arr (v :: acc).reverse, r2) else none
      | [] => none

end

/-- `json.loads`: parse one value and require only whitespace after it. -/
def json_loads (s : String) : Option Json :=
  match parseValue (2 * s.data.length + 2) s.data with
  | some (j, rest) => if rest.dropWhile jsonWs = [] then some j else none
  | none => none

/-- `dict.get` on a parsed object (keys are unique after `objInsert`). -/
def jGet : List (String × Json) → String → Option Json
  | [], _ => none
  | (k, v) :: rest, key => if k = key then some v else jGet rest key

/-! ### `integrated_filter/extractor.py` — `JSONStreamParser` -/

/-- The detection heuristic of `feed`: Python regex
`^\s*\x7b[\s"]*text["\x27]?\s*:` applied to the stripped line (the
character classes cannot consume the letter `t`, so the greedy match never
needs to backtrack and the model below is exact). -/
def startRegexMatch (l : List Char) : Bool :=
  match l.dropWhile pyIsSpace with
  | [] => false
  | c :: rest =>
    if c = lbrace then
      let r2 := rest.dropWhile fun c => pyIsSpace c || c = '"'
      if "text".data.isPrefixOf r2 then
        let r3 := r2.drop 4
        let r4 := match r3 with
          | d :: ds => if d = '"' || d = squote then ds else r3
          | [] => r3
        match r4.dropWhile pyIsSpace with
        | ':' :: _ => true
        | _ => false
      else false
    else false

/-- `line.count('{') - line.count('}')`. -/
def braceDelta (l : List Char) : Int :=
  (l.count lbrace : Int) - (l.count rbrace : Int)

/-- The quote-normalization repairs of `_parse_buffer`, in source order:
curly double quotes to `"`, apostrophe to `"`, then the literal six
characters `’` to an apostrophe. -/
def normalize_quotes (s : String) : String :=
  replaceAll (replaceAll (replaceAll (replaceAll s ⟨[lcurlyQuote]⟩ "\"")
    ⟨[rcurlyQuote]⟩ "\"") ⟨[squote]⟩ "\"") "\\u2019" ⟨[squote]⟩

/-- Does `,\s*\x7d$` match (a trailing comma right before the final
closing brace)? -/
def trailingCommaMatch (l : List Char) : Bool :=
  match l.reverse with
  | [] => false
  | c :: rest =>
    c = rbrace &&
      match rest.dropWhile pyIsSpace with
      | d :: _ => d = ','
      | [] => false

/-- The trailing-comma repair of `_parse_buffer`: collapse `,\s*\x7d` at
the end of the buffer to `\x7d`, if present. -/
def collapse_trailing_comma (s : String) : String :=
  match s.data.reverse with
  | [] => s
  | c :: rest =>
    if c = rbrace then
      match rest.dropWhile pyIsSpace with
      | d :: r2 => if d = ',' then ⟨(rbrace :: r2).reverse⟩ else s
      | [] => s
    else s

/-- The whole repair pipeline of `_parse_buffer`, exactly as the source
chains it. -/
def sanitize (s : String) : String :=
  collapse_trailing_comma (normalize_quotes s)

/-- State of `JSONStreamParser.__init__`. -/
structure JSONStreamParser where
  buffer : String
  in_object : Bool
  object_count : Int
  entry_count : Nat
  error_count : Nat

/-- A freshly constructed parser. -/
def JSONStreamParser.mkInit : JSONStreamParser := ⟨"", false, 0, 0, 0⟩

/-- `_parse_buffer`: count the attempt, repair, parse; a successful parse
of an object returns its `text` field (empty string when absent); any
failure — including a non-object value, whose `.get` raises — is caught,
counted in `error_count`, and yields `None`. -/
def parse_buffer (p : JSONStreamParser) : Option Json × JSONStreamParser :=
  let p1 := { p with entry_count := p.entry_count + 1 }
  match json_loads (sanitize p1.buffer) with
  | some (Json.obj kvs) => (some ((jGet kvs "text").getD (Json.str "")), p1)
  | some _ => (none, { p1 with error_count := p1.error_count + 1 })
  | none => (none, { p1 with error_count := p1.error_count + 1 })

/-- `feed(line)`: strip; ignore empty lines; on a start-pattern match,
restart accumulation; while accumulating, append the stripped line and the
brace delta, and parse once the count returns to zero. -/
def feed (p : JSONStreamParser) (line : String) : Option Json × JSONStreamParser :=
  let t := pyStrip line
  if t = "" then (none, p)
  else
    let p1 := if startRegexMatch t.data then
        { p with in_object := true, object_count := 0, buffer := "" }
      else p
    if p1.in_object then
      let buf := p1.buffer ++ t
      let cnt := p1.object_count + braceDelta t.data
      if cnt = 0 then
        parse_buffer { p1 with buffer := buf, object_count := cnt, in_object := false }
      else (none, { p1 with buffer := buf, object_count := cnt })
    else (none, p1)

/-- Feed a list of chunks in order, collecting each call's result. -/
def feedAll (p : JSONStreamParser) : List String → List (Option Json) × JSONStreamParser
  | [] => ([], p)
  | c :: cs =>
    let (r, p1) := feed p c
    let (rs, p2) := feedAll p1 cs
    (r :: rs, p2)

/-- A Python exception that escapes a call, where a claim needs it. -/
inductive PyErr where
  | zeroDivision
  | attributeError

/-- The reading loop of `process_file`: results that are strings are
stripped and kept when non-empty; a `None` result (including a JSON
`null` text field, which Python cannot tell apart from the failure
`None`) is skipped; any other value would raise `AttributeError` at
`result.strip()`.  Note there is no flush of a pending buffer after the
loop. -/
def processLines : JSONStreamParser → List String → Except PyErr (List String × JSONStreamParser)
  | p, [] => .ok ([], p)
  | p, line :: ls =>
    match feed p line with
    | (none, p1) => processLines p1 ls
    | (some Json.null, p1) => processLines p1 ls
    | (some (Json.str s), p1) =>
      match processLines p1 ls with
      | .ok (acc, pf) => .ok ((if pyStrip s = "" then acc else pyStrip s :: acc), pf)
      | .error e => .error e
    | (some _, _) => .error .attributeError

/-! ### `cleaning.py` — `AcademicContentFilter`

The regular expressions compiled in `_compile_regex` from the default
configuration are embedded as explicit scanners below (`IGNORECASE` is
modelled by searching the lowercased text).  NLTK's `word_tokenize` and
`stopwords` corpus are external collaborators and enter as explicit
fields; Python floats are modelled as rationals. -/

/-- Search one position-predicate at every position of the text, keeping
track of the preceding character for word-boundary tests (regex
`search`). -/
def scanPositions (p : Option Char → List Char → Bool) : Option Char → List Char → Bool
  | _, [] => false
  | prev, c :: cs => p prev (c :: cs) || scanPositions p (some c) cs

/-- Regex `\b` before a word character: start of text or a non-word
predecessor. -/
def boundaryB : Option Char → Bool
  | none => true
  | some c => !isWordChar c

/-- Is the next character a word character (regex `\b` after a non-word
character demands it; after a word character, demands the opposite)? -/
def nextIsWord : List Char → Bool
  | [] => false
  | c :: _ => isWordChar c

/-- Position test for `\bw\b` where `w` is a literal (possibly containing
a space, which is non-word). -/
def atWord (w : List Char) (prev : Option Char) (l : List Char) : Bool :=
  boundaryB prev && w.isPrefixOf l && !nextIsWord (l.drop w.length)

/-- Regex `\bword\b` anywhere in the text. -/
def searchWord (w : String) (l : List Char) : Bool :=
  scanPositions (atWord w.data) none l

/-- Regex `\[\d+\]` anywhere in the text. -/
def searchBracketNum : List Char → Bool
  | [] => false
  | c :: cs =>
    (c = '[' &&
      (let (ds, r) := digitSpan cs
       !ds.isEmpty &&
         match r with
         | d :: _ => d = ']'
         | [] => false)) ||
    searchBracketNum cs

/-- Position test for `\bdoi:\s*\d+\.\d+/[\w.-]+`. -/
def atDoi (prev : Option Char) (l : List Char) : Bool :=
  boundaryB prev &&
    match l with
    | 'd' :: 'o' :: 'i' :: ':' :: rest =>
      let r1 := rest.dropWhile pyIsSpace
      let (d1, r2) := digitSpan r1
      !d1.isEmpty &&
        match r2 with
        | '.' :: r3 =>
          let (d2, r4) := digitSpan r3
          !d2.isEmpty &&
            match r4 with
            | '/' :: c :: _ => isWordChar c || c = '.' || c = '-'
            | _ => false
        | _ => false
    | _ => false

/-- `ref_regex.search(text)` for the default `reference_patterns`:
`\b(?:references|bibliography)\b`, `\[\d+\]`, or
`\bdoi:\s*\d+\.\d+/[\w.-]+`, case-insensitively. -/
def refSearch (text : String) : Bool :=
  let l := (pyLower text).data
  searchWord "references" l || searchWord "bibliography" l ||
    searchBracketNum l || scanPositions atDoi none l

/-- Position test for `@\w+\.\w\x7b2,3\x7d\b` with the regex's leading
`\b` (which, before the non-word `@`, demands a word-character
predecessor).  The greedy `\w\x7b2,3\x7d\b` succeeds exactly when the
maximal word-character run after the dot has length two or three. -/
def atEmailAt (prev : Option Char) (l : List Char) : Bool :=
  (match prev with
   | some c => isWordChar c
   | none => false) &&
    match l with
    | '@' :: rest =>
      let (w1, r1) := rest.span isWordChar
      !w1.isEmpty &&
        match r1 with
        | '.' :: r2 =>
          let (w2, _) := r2.span isWordChar
          w2.length = 2 || w2.length = 3
        | _ => false
    | _ => false

/-- Position test for `\b(?:prof\.|dr\.|ph\.d\.)\b`: the trailing `\b`
follows a dot, so it demands a word character right after. -/
def atProfLike (prev : Option Char) (l : List Char) : Bool :=
  boundaryB prev &&
    (patThenWord "prof.".data l || patThenWord "dr.".data l || patThenWord "ph.d.".data l)
where
  patThenWord (pat l : List Char) : Bool :=
    pat.isPrefixOf l && nextIsWord (l.drop pat.length)

/-- `author_regex.search(text)` for the default `author_info_patterns`:
`\b(?:corresponding author|email|@\w+\.\w\x7b2,3\x7d)\b` or
`\b(?:prof\.|dr\.|ph\.d\.)\b`, case-insensitively. -/
def authorSearch (text : String) : Bool :=
  let l := (pyLower text).data
  searchWord "corresponding author" l || searchWord "email" l ||
    scanPositions atEmailAt none l || scanPositions atProfLike none l

/-- The configuration fields of `AcademicContentFilter.__init__` that the
filtering rules read (the source field `max_stopword_ratio` is named
`max_stopword_share` here). -/
structure FilterConfig where
  min_paragraph_length : Nat
  max_stopword_share : ℚ
  ad_keywords : List String

/-- The default configuration of `__init__`: length 50, stop-word ratio
0.6, keywords `sponsored` and `advertisement`. -/
def defaultConfig : FilterConfig :=
  { min_paragraph_length := 50
    max_stopword_share := 3 / 5
    ad_keywords := ["sponsored", "advertisement"] }

/-- An `AcademicContentFilter` instance: its configuration plus the two
external collaborators it stores — the NLTK stop-word list and the NLTK
tokenizer. -/
structure AcademicContentFilter where
  config : FilterConfig
  stop_words : List String
  tokenize : String → List String

/-- `_is_low_quality`: tokenize the lowercased text, keep the alphabetic
tokens; more than 10000 words skips the check (returns `False`); fewer
words than `min_paragraph_length` is low quality; otherwise compare the
stop-word fraction with the configured maximum — a division that raises
`ZeroDivisionError` when there are no words (the method's own handler
catches only `RuntimeError`, so that exception escapes). -/
def is_low_quality (f : AcademicContentFilter) (text : String) : Except PyErr Bool :=
  let tokens := f.tokenize (pyLower text)
  let words := tokens.filter pyIsAlpha
  if words.length > 10000 then .ok false
  else if words.length < f.config.min_paragraph_length then .ok true
  else if words.length = 0 then .error .zeroDivision
  else .ok (decide
    (((words.filter (fun w => f.stop_words.contains w)).length : ℚ) / (words.length : ℚ)
      > f.config.max_stopword_share))

/-- Is a character outside the class `[\w\s.,;:!?]` (the regex
`_is_nonsense` counts)? -/
def isSpecialChar (c : Char) : Bool :=
  !(isWordChar c || pyIsSpace c ||
    c = '.' || c = ',' || c = ';' || c = ':' || c = '!' || c = '?')

/-- Regex `(\w)\1\x7b3,\x7d`: some word character repeated at least four
times in a row. -/
def hasRepeatRun : List Char → Bool
  | a :: b :: c :: d :: rest =>
    (isWordChar a && a = b && b = c && c = d) || hasRepeatRun (b :: c :: d :: rest)
  | _ => false

/-- `_is_nonsense`: empty text is nonsense; otherwise more than 30%
special characters, or a fourfold repeated word character. -/
def is_nonsense (text : String) : Bool :=
  match text.data with
  | [] => true
  | l =>
    decide (((l.filter isSpecialChar).length : ℚ) / (l.length : ℚ) > 3 / 10) ||
      hasRepeatRun l

/-- The reason codes of the specification's `FilterVerdict` (the combined
`or` of rule 2 splits into its two short-circuit branches). -/
inductive FilterReason where
  | AD_KEYWORD
  | REFERENCE_PATTERN
  | AUTHOR_INFO
  | LOW_QUALITY
  | NONSENSE

/-- Rule 1 of `_filter_text`:
`any(kw in text.lower() for kw in ad_keywords)`. -/
def adHit (f : AcademicContentFilter) (text : String) : Bool :=
  f.config.ad_keywords.any fun kw => containsSub kw.data (pyLower text).data

/-- The `try` body of `_filter_text`, annotated with the rule that fires:
ad keywords, then the reference/author regexes, then the quality check
(whose `ZeroDivisionError` propagates to here), then nonsense. -/
def rules_eval (f : AcademicContentFilter) (text : String) :
    Except PyErr (Option FilterReason) :=
  if adHit f text then .ok (some .AD_KEYWORD)
  else if refSearch text then .ok (some .REFERENCE_PATTERN)
  else if authorSearch text then .ok (some .AUTHOR_INFO)
  else
    match is_low_quality f text with
    | .error e => .error e
    | .ok true => .ok (some .LOW_QUALITY)
    | .ok false =>
      if is_nonsense text then .ok (some .NONSENSE) else .ok none

/-- `_filter_text`: `True` when some rule fires; the enclosing
`except Exception` turns any escaped exception into `False` (keep). -/
def filter_text (f : AcademicContentFilter) (text : String) : Bool :=
  match rules_eval f text with
  | .ok r => r.isSome
  | .error _ => false

/-- `_filter_text` as a state transformer on the filter object: the
method reads `self.config`, the compiled regexes and `self.stop_words`
but assigns no attribute, so the object comes back unchanged. -/
def filter_text_run (f : AcademicContentFilter) (text : String) :
    Bool × AcademicContentFilter :=
  (filter_text f text, f)

/-- A tokenizer producing 10001 copies of the word `a`, exercising the
token guard of `_is_low_quality`. -/
def bigTok : String → List String := fun _ => List.replicate 10001 "a"

/-- Concatenation of the stripped chunks of a record — the buffer the
stream parser accumulates. -/
def stripConcat : List String → String
  | [] => ""
  | c :: cs => pyStrip c ++ stripConcat cs

/-- Well-formed framing of the remaining chunks of one record while the
parser is accumulating with running brace count `k`: every chunk is
non-empty after stripping and does not retrigger the start pattern, and
the running count stays positive until the final chunk returns it to
exactly zero. -/
def goodTail (k : Int) : List String → Bool
  | [] => false
  | c :: cs =>
    decide (pyStrip c ≠ "") && !startRegexMatch (pyStrip c).data &&
      (match cs with
       | [] => decide (k + braceDelta (pyStrip c).data = 0)
       | _ :: _ =>
         decide (0 < k + braceDelta (pyStrip c).data) &&
           goodTail (k + braceDelta (pyStrip c).data) cs)

/-- Well-formed framing of one whole record: the first chunk triggers the
start pattern and the brace count stays positive strictly inside the
record, returning to zero exactly at the last chunk. -/
def goodChunks : List String → Bool
  | [] => false
  | c :: cs =>
    decide (pyStrip c ≠ "") && startRegexMatch (pyStrip c).data &&
      (match cs with
       | [] => decide (braceDelta (pyStrip c).data = 0)
       | _ :: _ =>
         decide (0 < braceDelta (pyStrip c).data) &&
           goodTail (braceDelta (pyStrip c).data) cs)

/-- The parser state just before `_parse_buffer` runs at the end of a
record: accumulated buffer extended by the stripped chunks, count reset to
zero, no longer accumulating. -/
def flushState (p : JSONStreamParser) (cs : List String) : JSONStreamParser :=
  { p with buffer := p.buffer ++ stripConcat cs, object_count := 0, in_object := false }

/-! ### Lemmas about the similarity index -/

/-- Inserting one more signature can only add query hits. -/
theorem lshQuery_append (b r : Nat) (keys : LSHKeys) (x : String × List Nat)
    (sig : List Nat) (h : lshQuery b r keys sig = true) :
    lshQuery b r (keys ++ [x]) sig = true := by
  simp only [lshQuery, List.any_append, Bool.or_eq_true]
  exact Or.inl h

/-- With at least one band, a signature always collides with itself. -/
theorem bandMatch_self (b r : Nat) (hb : 0 < b) (s : List Nat) :
    bandMatch b r s s = true := by
  simp only [bandMatch, List.any_eq_true, List.mem_range]
  exact ⟨0, hb, by simp⟩

/-- A text whose signature already hits the index is never emitted by the
rest of the dedup loop. -/
theorem dedupAux_not_mem (b r : Nat) (t : String) :
    ∀ (ts : List String) (keys : LSHKeys) (i : Nat),
      lshQuery b r keys (get_minhash t) = true → t ∉ dedupAux b r keys i ts := by
  intro ts
  induction ts with
  | nil => intro keys i _; simp [dedupAux]
  | cons u us ih =>
    intro keys i h
    cases hq : lshQuery b r keys (get_minhash u) with
    | true => simpa [dedupAux, hq] using ih keys (i + 1) h
    | false =>
      have hne : t ≠ u := by
        intro he
        rw [he] at h
        rw [h] at hq
        cases hq
      have h2 : lshQuery b r (lshInsert keys ("text_" ++ toString i) (get_minhash u))
          (get_minhash t) = true := lshQuery_append b r keys _ _ h
      simp only [dedupAux, hq, Bool.false_eq_true, if_false, List.mem_cons, not_or]
      exact ⟨hne, ih _ (i + 1) h2⟩

/-- The dedup loop never emits two near-duplicate-colliding copies; in
particular its output has no repeated text. -/
theorem dedupAux_nodup (b r : Nat) (hb : 0 < b) :
    ∀ (ts : List String) (keys : LSHKeys) (i : Nat), (dedupAux b r keys i ts).Nodup := by
  intro ts
  induction ts with
  | nil => intro keys i; simp [dedupAux]
  | cons u us ih =>
    intro keys i
    cases hq : lshQuery b r keys (get_minhash u) with
    | true => simpa [dedupAux, hq] using ih keys (i + 1)
    | false =>
      simp only [dedupAux, hq, Bool.false_eq_true, if_false]
      refine List.nodup_cons.mpr ⟨?_, ih _ (i + 1)⟩
      refine dedupAux_not_mem b r u us _ (i + 1) ?_
      simp only [lshInsert, lshQuery, List.any_append, Bool.or_eq_true]
      exact Or.inr (by simp [bandMatch_self b r hb])

/-- The dedup loop's output is a subsequence of its input. -/
theorem dedupAux_sublist (b r : Nat) :
    ∀ (ts : List String) (keys : LSHKeys) (i : Nat),
      (dedupAux b r keys i ts).Sublist ts := by
  intro ts
  induction ts with
  | nil => intro keys i; simp [dedupAux]
  | cons u us ih =>
    intro keys i
    cases hq : lshQuery b r keys (get_minhash u) with
    | true =>
      simp only [dedupAux, hq, if_true]
      exact (ih keys (i + 1)).cons u
    | false =>
      simp only [dedupAux, hq, Bool.false_eq_true, if_false]
      exact (ih _ (i + 1)).cons₂ u

/-- C1: Deduplication preserves first-occurrence order.  For every input
sequence, `deduplicate_texts` returns a subsequence of its input (so kept
records appear in their original relative order and are the
first-processed member of their collision group, since a text colliding
with an already-indexed one is dropped); in particular, for records
`[A, B, A']` where the index flags `A'` as a near-duplicate of `A` and
does not flag `B`, the output is `[A, B]`. -/
theorem C1_dedup_first_occurrence_order (b r : Nat) :
    (∀ texts : List String, (deduplicate_texts texts b r).Sublist texts) ∧
    (∀ A B A' : String,
      bandMatch b r (get_minhash A) (get_minhash B) = false →
      bandMatch b r (get_minhash A) (get_minhash A') = true →
      deduplicate_texts [A, B, A'] b r = [A, B]) := by
  constructor
  · intro texts
    exact dedupAux_sublist b r texts [] 0
  · intro A B A' hAB hAA'
    simp [deduplicate_texts, dedupAux, lshQuery, lshInsert, hAB, hAA']

/-- Closed instance of `C1_dedup_first_occurrence_order` with both
hypotheses discharged on concrete texts (the third a copy of the first,
hence an indexed collision). -/
theorem C1_dedup_first_occurrence_order_witness :
    (deduplicate_texts ["alpha beta", "gamma delta", "alpha beta"] 1 4).Sublist
      ["alpha beta", "gamma delta", "alpha beta"] ∧
    deduplicate_texts ["alpha beta", "gamma delta", "alpha beta"] 1 4 =
      ["alpha beta", "gamma delta"] :=
  ⟨(C1_dedup_first_occurrence_order 1 4).1 _,
   (C1_dedup_first_occurrence_order 1 4).2 "alpha beta" "gamma delta" "alpha beta"
     (by decide) (by decide)⟩

/-- C2: After a signature is inserted, the query on an identical text
reports a near-duplicate (identical texts have identical signatures, and
any banding with at least one band makes a signature collide with
itself); consequently `deduplicate_texts` never outputs a text equal to
an earlier one — its output has no duplicates — for every banding a
threshold below 1.0 induces (all of which have at least one band). -/
theorem C2_identical_text_deduplicated (b r : Nat) (hb : 0 < b) :
    (∀ (keys : LSHKeys) (key t : String),
      lshQuery b r (lshInsert keys key (get_minhash t)) (get_minhash t) = true) ∧
    (∀ texts : List String, (deduplicate_texts texts b r).Nodup) := by
  constructor
  · intro keys key t
    simp only [lshQuery, lshInsert, List.any_append, Bool.or_eq_true]
    exact Or.inr (by simp [bandMatch_self b r hb])
  · intro texts
    exact dedupAux_nodup b r hb texts [] 0

/-- Closed instance of `C2_identical_text_deduplicated` at a concrete
banding and concrete texts. -/
theorem C2_identical_text_deduplicated_witness :
    lshQuery 1 4 (lshInsert [] "text_0" (get_minhash "x y")) (get_minhash "x y") = true ∧
    (deduplicate_texts ["x y", "z w", "x y"] 1 4).Nodup :=
  ⟨(C2_identical_text_deduplicated 1 4 (by decide)).1 [] "text_0" "x y",
   (C2_identical_text_deduplicated 1 4 (by decide)).2 ["x y", "z w", "x y"]⟩

/-- C6: Ad-keyword containment is the first rule of `_filter_text` and
wins whenever it matches, regardless of what later rules would do: the
annotated rule chain reports `AD_KEYWORD` and the text is dropped.  The
claim's scenario instantiates this at
`"Sponsored content about discounts"` under the default configuration
(see the witness). -/
theorem C6_ad_keyword_rule_first (f : AcademicContentFilter) (text : String)
    (h : adHit f text = true) :
    rules_eval f text = .ok (some .AD_KEYWORD) ∧ filter_text f text = true := by
  refine ⟨?_, ?_⟩
  · simp [rules_eval, h]
  · simp [filter_text, rules_eval, h]

/-- The claim's scenario, closed: keyword `sponsored` is in the default
configuration and the input line's text matches it case-insensitively, so
the verdict is drop with reason `AD_KEYWORD` (whatever the stop-word list
and tokenizer). -/
theorem C6_ad_keyword_rule_first_witness :
    adHit ⟨defaultConfig, [], pySplit⟩ "Sponsored content about discounts" = true ∧
    rules_eval ⟨defaultConfig, [], pySplit⟩ "Sponsored content about discounts" =
      .ok (some .AD_KEYWORD) ∧
    filter_text ⟨defaultConfig, [], pySplit⟩ "Sponsored content about discounts" = true :=
  ⟨by decide,
   (C6_ad_keyword_rule_first ⟨defaultConfig, [], pySplit⟩ _ (by decide)).1,
   (C6_ad_keyword_rule_first ⟨defaultConfig, [], pySplit⟩ _ (by decide)).2⟩

/-- C7: The quality filter is deterministic and stateless: the evaluation
method, read as a state transformer on the filter object, returns the
object unchanged and a verdict that is a pure function of the
configuration, the stored collaborators and the text — so a second call
on the same input yields the identical verdict. -/
theorem C7_filter_deterministic (f : AcademicContentFilter) (text : String) :
    filter_text_run f text = (filter_text f text, f) ∧
    (filter_text_run (filter_text_run f text).2 text).1 = (filter_text_run f text).1 :=
  ⟨rfl, rfl⟩

/-- C8: A text with zero alphabetic tokens is classified low-quality and
the stop-word division is never reached (the length test short-circuits
the Python `or`), provided the configured minimum length is positive —
true of the default (50) and of every shipped profile; moreover when the
earlier rules do not fire the whole filter reports `LOW_QUALITY`. -/
theorem C8_zero_tokens_low_quality (f : AcademicContentFilter) (text : String)
    (hmin : 0 < f.config.min_paragraph_length)
    (hz : (f.tokenize (pyLower text)).filter pyIsAlpha = []) :
    is_low_quality f text = .ok true ∧
    (adHit f text = false → refSearch text = false → authorSearch text = false →
      rules_eval f text = .ok (some .LOW_QUALITY)) := by
  have h1 : is_low_quality f text = .ok true := by
    simp [is_low_quality, hz, hmin]
  refine ⟨h1, ?_⟩
  intro h2 h3 h4
  simp [rules_eval, h2, h3, h4, h1]

/-- Closed instance of `C8_zero_tokens_low_quality`: `"1 2 3"` tokenizes
to no alphabetic word under the default configuration. -/
theorem C8_zero_tokens_low_quality_witness :
    0 < (⟨defaultConfig, [], pySplit⟩ : AcademicContentFilter).config.min_paragraph_length ∧
    (pySplit (pyLower "1 2 3")).filter pyIsAlpha = [] ∧
    is_low_quality ⟨defaultConfig, [], pySplit⟩ "1 2 3" = .ok true ∧
    rules_eval ⟨defaultConfig, [], pySplit⟩ "1 2 3" = .ok (some .LOW_QUALITY) :=
  ⟨by decide, by decide,
   (C8_zero_tokens_low_quality ⟨defaultConfig, [], pySplit⟩ "1 2 3" (by decide) (by decide)).1,
   (C8_zero_tokens_low_quality ⟨defaultConfig, [], pySplit⟩ "1 2 3" (by decide) (by decide)).2
     (by decide) (by decide) (by decide)⟩

/-- A helper for the C9 witness: filtering keeps a replicated element the
predicate accepts. -/
theorem filter_replicate_of_pos {α : Type} (p : α → Bool) (a : α) (h : p a = true) :
    ∀ n : Nat, (List.replicate n a).filter p = List.replicate n a := by
  intro n
  induction n with
  | zero => rfl
  | succ n ih => simp [List.replicate_succ, List.filter_cons, h, ih]

/-- C9: A text whose alphabetic token count exceeds the 10000-token guard
skips the low-quality check entirely: the check returns "not low quality"
whatever the stop-word list, the minimum length or the ratio
configuration. -/
theorem C9_token_guard_skips_check (f : AcademicContentFilter) (text : String)
    (h : 10000 < ((f.tokenize (pyLower text)).filter pyIsAlpha).length) :
    is_low_quality f text = .ok false := by
  simp [is_low_quality, h]

/-- Closed instance of `C9_token_guard_skips_check`, with a zero minimum
length and an all-covering stop-word list that would otherwise flag the
text. -/
theorem C9_token_guard_skips_check_witness :
    10000 < ((bigTok (pyLower "x")).filter pyIsAlpha).length ∧
    is_low_quality ⟨⟨0, 0, ["a"]⟩, ["a"], bigTok⟩ "x" = .ok false := by
  have h : 10000 < ((bigTok (pyLower "x")).filter pyIsAlpha).length := by
    show 10000 < ((List.replicate 10001 "a").filter pyIsAlpha).length
    rw [filter_replicate_of_pos pyIsAlpha "a" (by decide), List.length_replicate]
    omega
  exact ⟨h, C9_token_guard_skips_check ⟨⟨0, 0, ["a"]⟩, ["a"], bigTok⟩ "x" h⟩

/-- C10: The core evaluation never lets an exception escape: whenever the
rule chain raises (the `ZeroDivisionError` of the stop-word ratio being
the reachable case), `_filter_text`'s `except Exception` handler returns
`False`, i.e. the text is kept rather than counted as an error or
dropped. -/
theorem C10_exception_means_keep (f : AcademicContentFilter) (text : String) (e : PyErr)
    (h : rules_eval f text = .error e) : filter_text f text = false := by
  simp [filter_text, h]

/-- Closed instance of `C10_exception_means_keep`: with a zero minimum
length, a text with no alphabetic token reaches the stop-word division
and raises; the verdict is keep. -/
theorem C10_exception_means_keep_witness :
    rules_eval ⟨⟨0, 3 / 5, []⟩, [], pySplit⟩ "123 456" = .error .zeroDivision ∧
    filter_text ⟨⟨0, 3 / 5, []⟩, [], pySplit⟩ "123 456" = false :=
  ⟨by rfl, C10_exception_means_keep ⟨⟨0, 3 / 5, []⟩, [], pySplit⟩ "123 456" .zeroDivision (by rfl)⟩

/-! ### Lemmas about strings and the repair pipeline -/

/-- Appending the empty string on the right is the identity. -/
theorem string_append_empty (s : String) : s ++ "" = s := by
  obtain ⟨d⟩ := s
  show (⟨d ++ []⟩ : String) = ⟨d⟩
  rw [List.append_nil]

/-- String concatenation is associative. -/
theorem string_append_assoc (a b c : String) : a ++ b ++ c = a ++ (b ++ c) := by
  obtain ⟨x⟩ := a
  obtain ⟨y⟩ := b
  obtain ⟨z⟩ := c
  show (⟨x ++ y ++ z⟩ : String) = ⟨x ++ (y ++ z)⟩
  rw [List.append_assoc]

/-- `str.replace` leaves an input without any occurrence of the pattern
unchanged. -/
theorem replaceAllAux_of_not_contains (pat rep : List Char) :
    ∀ (l : List Char) (fuel : Nat), containsSub pat l = false →
      replaceAllAux pat rep fuel l = l := by
  intro l
  induction l with
  | nil => intro fuel _; cases fuel <;> rfl
  | cons c cs ih =>
    intro fuel h
    simp only [containsSub, Bool.or_eq_false_iff] at h
    obtain ⟨hp, hc⟩ := h
    cases fuel with
    | zero => rfl
    | succ fuel =>
      simp only [replaceAllAux, hp, Bool.false_and, Bool.false_eq_true, if_false]
      rw [ih fuel hc]

/-- `str.replace` on strings, same statement. -/
theorem replaceAll_of_not_contains (s pat rep : String)
    (h : containsSub pat.data s.data = false) : replaceAll s pat rep = s := by
  obtain ⟨d⟩ := s
  show (⟨replaceAllAux pat.data rep.data d.length d⟩ : String) = ⟨d⟩
  rw [replaceAllAux_of_not_contains pat.data rep.data d d.length h]

/-- When the trailing-comma pattern does not match, the second repair
step is the identity. -/
theorem collapse_of_not_match (s : String) (h : trailingCommaMatch s.data = false) :
    collapse_trailing_comma s = s := by
  unfold collapse_trailing_comma
  unfold trailingCommaMatch at h
  cases hrev : s.data.reverse with
  | nil => simp only [hrev]
  | cons c rest =>
    simp only [hrev] at h ⊢
    by_cases hc : c = rbrace
    · subst hc
      simp only [decide_True, Bool.true_and] at h
      cases hd : rest.dropWhile pyIsSpace with
      | nil => simp [hd]
      | cons d r2 =>
        rw [hd] at h
        have hdc : d ≠ ',' := by simpa using h
        simp [hd, hdc]
    · simp [hc]

/-- C5: Repair runs in the fixed order quote-normalization first, then
collapse of one trailing comma before the closing brace, and performs no
other repair: on a buffer containing none of the rewritten quote
characters and no trailing-comma match, the pipeline is the identity.
The claim's scenario: the malformed line with a trailing comma is
repaired and parses to the text value `abc` with no failure counted. -/
theorem C5_repair_fixed_order (s : String)
    (h1 : containsSub [lcurlyQuote] s.data = false)
    (h2 : containsSub [rcurlyQuote] s.data = false)
    (h3 : containsSub [squote] s.data = false)
    (h4 : containsSub "\\u2019".data s.data = false)
    (ht : trailingCommaMatch s.data = false) :
    sanitize s = collapse_trailing_comma (normalize_quotes s) ∧
    sanitize s = s ∧
    (feed .mkInit "\x7b\"text\": \"abc\",\x7d").1 = some (Json.str "abc") ∧
    (feed .mkInit "\x7b\"text\": \"abc\",\x7d").2.error_count = 0 := by
  have hn : normalize_quotes s = s := by
    unfold normalize_quotes
    rw [replaceAll_of_not_contains _ _ _ h1, replaceAll_of_not_contains _ _ _ h2,
      replaceAll_of_not_contains _ _ _ h3, replaceAll_of_not_contains _ _ _ h4]
  refine ⟨rfl, ?_, rfl, rfl⟩
  unfold sanitize
  rw [hn]
  exact collapse_of_not_match s ht

/-- Closed instance of `C5_repair_fixed_order` on a quote-free,
comma-clean buffer, together with the scenario conclusion. -/
theorem C5_repair_fixed_order_witness :
    trailingCommaMatch "\x7b\"a\": 1\x7d".data = false ∧
    sanitize "\x7b\"a\": 1\x7d" = "\x7b\"a\": 1\x7d" ∧
    (feed .mkInit "\x7b\"text\": \"abc\",\x7d").1 = some (Json.str "abc") :=
  ⟨by decide,
   (C5_repair_fixed_order "\x7b\"a\": 1\x7d" (by decide) (by decide) (by decide)
     (by decide) (by decide)).2.1,
   (C5_repair_fixed_order "\x7b\"a\": 1\x7d" (by decide) (by decide) (by decide)
     (by decide) (by decide)).2.2.1⟩

/-- C4: the code side of the claim, evaluated.  On a stream whose braces
never balance, the reading loop of `process_file` extracts nothing and
ends with `error_count = 0` while the parser is still accumulating the
partial record: there is no `finalize`, so the trailing partial record is
silently dropped and the failure counter does not reflect it —
contradicting the claim (and the specification's stated intent). -/
theorem C4_unbalanced_end_silently_dropped :
    processLines .mkInit ["\x7b\"text\": \"abc\""] =
      .ok ([], ⟨"\x7b\"text\": \"abc\"", true, 1, 0, 0⟩) ∧
    (feedAll .mkInit ["\x7b\"text\": \"abc\""]).2.error_count = 0 ∧
    (feedAll .mkInit ["\x7b\"text\": \"abc\""]).2.in_object = true :=
  ⟨rfl, rfl, rfl⟩

/-! ### The stream parser on a well-framed record -/

/-- One step of `feedAll` (the pair match reduces by structure eta). -/
theorem feedAll_cons (p : JSONStreamParser) (c : String) (cs : List String) :
    feedAll p (c :: cs) =
      ((feed p c).1 :: (feedAll (feed p c).2 cs).1, (feedAll (feed p c).2 cs).2) := rfl

/-- While the parser is accumulating, feeding well-framed continuation
chunks appends their stripped text to the buffer, returns `None` for each
chunk but the last, and on the last (where the count reaches zero) parses
the accumulated buffer. -/
theorem feedAll_accumulating :
    ∀ (cs : List String) (p : JSONStreamParser), p.in_object = true →
      goodTail p.object_count cs = true →
      feedAll p cs =
        (List.replicate (cs.length - 1) (none : Option Json) ++
            [(parse_buffer (flushState p cs)).1],
          (parse_buffer (flushState p cs)).2) := by
  intro cs
  induction cs with
  | nil => intro p _ hg; simp [goodTail] at hg
  | cons c cs ih =>
    intro p hin hg
    cases cs with
    | nil =>
      simp only [goodTail, Bool.and_eq_true, decide_eq_true_eq, Bool.not_eq_true'] at hg
      obtain ⟨⟨hne, hns⟩, hz⟩ := hg
      simp [feedAll, feed, hne, hns, hin, hz, stripConcat, string_append_empty, flushState]
    | cons c' cs' =>
      have hg2 : (decide (pyStrip c ≠ "") && !startRegexMatch (pyStrip c).data &&
          (decide (0 < p.object_count + braceDelta (pyStrip c).data) &&
            goodTail (p.object_count + braceDelta (pyStrip c).data) (c' :: cs'))) = true := hg
      simp only [Bool.and_eq_true, decide_eq_true_eq, Bool.not_eq_true'] at hg2
      obtain ⟨⟨hne, hns⟩, hpos, hg'⟩ := hg2
      have hcnt : ¬(p.object_count + braceDelta (pyStrip c).data = 0) := by omega
      have hfeed : feed p c = (none, { p with
          buffer := p.buffer ++ pyStrip c,
          object_count := p.object_count + braceDelta (pyStrip c).data }) := by
        simp [feed, hne, hns, hin, hcnt]
      have hIH := ih { p with
          buffer := p.buffer ++ pyStrip c,
          object_count := p.object_count + braceDelta (pyStrip c).data } hin hg'
      rw [feedAll_cons]
      simp only [hfeed]
      rw [hIH]
      simp [stripConcat, string_append_assoc, List.replicate_succ, flushState]

/-- Prepending the empty string is the identity. -/
theorem string_empty_append (s : String) : "" ++ s = s := by
  obtain ⟨d⟩ := s
  show (⟨[] ++ d⟩ : String) = ⟨d⟩
  rw [List.nil_append]

/-- C3 counterexample: a well-formed single-line JSON record with
balanced braces whose first (and only) field is the text key — the value
merely contains a curly quote — parses fine as JSON, triggers the start
pattern, balances its braces, and yet `feed` produces no successful
record: the quote-normalization repair corrupts the valid input and the
failure counter ends at 1. -/
theorem C3_counterexample_valid_record_fails :
    json_loads "\x7b\"text\": \"a“b\"\x7d" =
      some (Json.obj [("text", Json.str "a“b")]) ∧
    startRegexMatch (pyStrip "\x7b\"text\": \"a“b\"\x7d").data = true ∧
    braceDelta (pyStrip "\x7b\"text\": \"a“b\"\x7d").data = 0 ∧
    feedAll .mkInit ["\x7b\"text\": \"a“b\"\x7d"] =
      ([none], ⟨"\x7b\"text\": \"a“b\"\x7d", false, 0, 1, 1⟩) :=
  ⟨rfl, by decide, by decide, rfl⟩

/-- C3 (amended): for every single-record input, presented as one chunk
or several, that frames one record (start pattern on the first chunk,
braces balancing exactly at the last), parses as a JSON object carrying a
string under the text key, and is left unchanged by the repair pipeline
(no curly/single quotes — the repair would corrupt them — and no
trailing-comma match, which valid JSON cannot produce), feeding the
chunks yields `None` for every chunk except the last and exactly one
successful record carrying the text value, with one attempt counted and
no failure. -/
theorem C3_valid_single_record_parses (c : String) (cs : List String)
    (kvs : List (String × Json)) (v : String)
    (hg : goodChunks (c :: cs) = true)
    (hs : sanitize (stripConcat (c :: cs)) = stripConcat (c :: cs))
    (hj : json_loads (stripConcat (c :: cs)) = some (Json.obj kvs))
    (hv : jGet kvs "text" = some (Json.str v)) :
    feedAll .mkInit (c :: cs) =
      (List.replicate ((c :: cs).length - 1) (none : Option Json) ++ [some (Json.str v)],
        ⟨stripConcat (c :: cs), false, 0, 1, 0⟩) := by
  cases cs with
  | nil =>
    have hg2 : (decide (pyStrip c ≠ "") && startRegexMatch (pyStrip c).data &&
        decide (braceDelta (pyStrip c).data = 0)) = true := hg
    simp only [Bool.and_eq_true, decide_eq_true_eq] at hg2
    obtain ⟨⟨hne, hstart⟩, hz⟩ := hg2
    have hsc : stripConcat [c] = pyStrip c := by
      simp [stripConcat, string_append_empty]
    rw [hsc] at hs hj ⊢
    simp [feedAll, feed, parse_buffer, JSONStreamParser.mkInit, hne, hstart, hz, hs, hj,
      hv, string_empty_append]
  | cons c' cs' =>
    have hg2 : (decide (pyStrip c ≠ "") && startRegexMatch (pyStrip c).data &&
        (decide (0 < braceDelta (pyStrip c).data) &&
          goodTail (braceDelta (pyStrip c).data) (c' :: cs'))) = true := hg
    simp only [Bool.and_eq_true, decide_eq_true_eq] at hg2
    obtain ⟨⟨hne, hstart⟩, hpos, hgt⟩ := hg2
    have hδ : ¬(braceDelta (pyStrip c).data = 0) := by omega
    have hfeed : feed .mkInit c =
        (none, ⟨pyStrip c, true, braceDelta (pyStrip c).data, 0, 0⟩) := by
      simp [feed, JSONStreamParser.mkInit, hne, hstart, hδ, string_empty_append]
    have hacc := feedAll_accumulating (c' :: cs')
      ⟨pyStrip c, true, braceDelta (pyStrip c).data, 0, 0⟩ rfl hgt
    rw [feedAll_cons]
    simp only [hfeed]
    rw [hacc]
    have hflush : flushState ⟨pyStrip c, true, braceDelta (pyStrip c).data, 0, 0⟩
        (c' :: cs') = ⟨stripConcat (c :: c' :: cs'), false, 0, 0, 0⟩ := rfl
    rw [hflush]
    have hpb : parse_buffer ⟨stripConcat (c :: c' :: cs'), false, 0, 0, 0⟩ =
        (some (Json.str v), ⟨stripConcat (c :: c' :: cs'), false, 0, 1, 0⟩) := by
      simp [parse_buffer, hs, hj, hv]
    rw [hpb]
    simp [List.replicate_succ]

/-- Closed instance of `C3_valid_single_record_parses`: a record split in
two chunks, braces balancing at the second, quote-clean; exactly one
successful record with text `hello` comes out and no failure is
counted. -/
theorem C3_valid_single_record_parses_witness :
    goodChunks ["\x7b\"text\":", "\"hello\"\x7d"] = true ∧
    feedAll .mkInit ["\x7b\"text\":", "\"hello\"\x7d"] =
      ([none, some (Json.str "hello")], ⟨"\x7b\"text\":\"hello\"\x7d", false, 0, 1, 0⟩) := by
  refine ⟨by decide, ?_⟩
  have h := C3_valid_single_record_parses "\x7b\"text\":" ["\"hello\"\x7d"]
    [("text", Json.str "hello")] "hello" (by decide) (by rfl) (by rfl) (by rfl)
  rw [h]
  rfl

end WebPaper

